import Mathlib

/-!
Verification of the time-attendance template filler (src/app.py).

The development shallowly embeds the core logic of `app.py`:
`parse_date_cell` (lines 22-50) and `fill_template_from_days`
(lines 128-341).  Worksheets are modelled as functions from
(row, column) to cells; Python floats are modelled as rationals;
external library behaviour (the pandas permissive date fallback)
is an explicit parameter.
-/

namespace Timestamp

/-- Python's whitespace set used by `str.strip` (space, tab, newline,
carriage return, vertical tab, form feed). -/
def isSpaceChar (c : Char) : Bool :=
  c = ' ' || c = '\t' || c = '\n' || c = '\r' || c = '\x0b' || c = '\x0c'

/-- Model of Python `str.strip`: drop leading and trailing whitespace. -/
def pyStrip (l : List Char) : List Char :=
  ((l.dropWhile isSpaceChar).reverse.dropWhile isSpaceChar).reverse

/-- `str.strip` at the `String` level. -/
def pyStripS (s : String) : String :=
  String.mk (pyStrip s.data)

/-- Does `hay` start with `needle`?  (Auxiliary for substring search.) -/
def leadMatch : List Char → List Char → Bool
  | [], _ => true
  | _ :: _, [] => false
  | a :: as, b :: bs => a = b && leadMatch as bs

/-- Model of Python's `needle in hay` substring test on character lists. -/
def listContains : List Char → List Char → Bool
  | [], needle => needle.isEmpty
  | h :: t, needle => leadMatch needle (h :: t) || listContains t needle

/-- Model of Python's `needle in hay` substring test on strings. -/
def strContains (hay needle : String) : Bool :=
  listContains hay.data needle.data

/-- Model of Python `str.lower` (ASCII case fold suffices here). -/
def lowerStr (s : String) : String :=
  String.mk (s.data.map Char.toLower)

/-- Digit character for a value below ten. -/
def digitCharOf (n : Nat) : Char :=
  match n with
  | 0 => '0' | 1 => '1' | 2 => '2' | 3 => '3' | 4 => '4'
  | 5 => '5' | 6 => '6' | 7 => '7' | 8 => '8' | 9 => '9'
  | _ => '?'

/-- Decimal digit expansion, fuel-bounded for kernel reducibility. -/
def natStrAux : Nat → Nat → List Char
  | 0, _ => []
  | fuel + 1, n =>
    if n < 10 then [digitCharOf n]
    else natStrAux fuel (n / 10) ++ [digitCharOf (n % 10)]

/-- Decimal digit expansion of a natural number (model of Python `str(int)`
on non-negative values); the fuel `n + 1` always suffices. -/
def natStr (n : Nat) : List Char :=
  natStrAux (n + 1) n

/-- Model of Python `str(int)` for arbitrary integers. -/
def pyIntStr (z : ℤ) : String :=
  if z < 0 then String.mk ('-' :: natStr z.natAbs) else String.mk (natStr z.toNat)

/-- Python `abs` on a rational (kernel-computable form of `|q|`). -/
def pyAbs (q : ℚ) : ℚ :=
  if q < 0 then -q else q

/-- Python `round` on a rational: round half to even. -/
def pyRound (q : ℚ) : ℤ :=
  if q - ⌊q⌋ < 1/2 then ⌊q⌋
  else if 1/2 < q - ⌊q⌋ then ⌊q⌋ + 1
  else if ⌊q⌋ % 2 = 0 then ⌊q⌋ else ⌊q⌋ + 1

/-- Fractional decimal digits of `0 ≤ x < 1`, fuel-bounded (model of the
fractional part printed by Python `str(float)` for terminating decimals). -/
def fracDigits : Nat → ℚ → List Char
  | 0, _ => []
  | fuel + 1, x =>
    if x = 0 then []
    else
      let y := x * 10
      let d : ℤ := ⌊y⌋
      digitCharOf d.toNat :: fracDigits fuel (y - d)

/-- Decimal rendering of a non-negative rational, e.g. `7/5 ↦ "1.4"`,
`3 ↦ "3.0"` (model of Python `str(float)` on plain decimal values). -/
def decStrNN (q : ℚ) : String :=
  let ip : ℤ := ⌊q⌋
  let ds := fracDigits 30 (q - ip)
  String.mk (natStr ip.toNat) ++ "." ++ (if ds.isEmpty then ("0") else String.mk ds)

/-- Model of Python `str(float)` on plain decimal values. -/
def decStr (q : ℚ) : String :=
  if q < 0 then ("-") ++ decStrNN (-q) else decStrNN q

/-- Digits of a character list folded into a natural number
(model of Python `int(...)` on digit strings). -/
def natOfDigits (l : List Char) : Nat :=
  l.foldl (fun a c => a * 10 + (c.toNat - 48)) 0

/-- Model of Python `float(str)` on plain decimal literals: optional sign,
digits, optional fractional part.  Other float syntaxes are irrelevant to the
claims and are reported as unparseable. -/
def pyFloatChars (l : List Char) : Option ℚ :=
  let core : List Char → Option ℚ := fun m =>
    let ip := m.takeWhile Char.isDigit
    let rest := m.dropWhile Char.isDigit
    match rest with
    | [] => if ip.isEmpty then none else some (natOfDigits ip)
    | '.' :: fp0 =>
      let fp := fp0.takeWhile Char.isDigit
      let rest2 := fp0.dropWhile Char.isDigit
      if rest2.isEmpty && !(ip.isEmpty && fp.isEmpty) then
        some ((natOfDigits ip : ℚ) + (natOfDigits fp : ℚ) / (10 : ℚ) ^ fp.length)
      else none
    | _ => none
  match pyStrip l with
  | '+' :: m => core m
  | '-' :: m => (core m).map Neg.neg
  | m => core m

/-- Model of Python `float(str)` at the `String` level. -/
def pyFloat (s : String) : Option ℚ :=
  pyFloatChars s.data

/-- A Python `datetime.date` value: year, month, day as stored (the code
performs no Buddhist/Western era conversion, so the fields are literal). -/
structure DateV where
  y : Nat
  m : Nat
  d : Nat
deriving DecidableEq

/-- Gregorian leap-year rule (as used by Python `datetime.date`). -/
def isLeap (y : Nat) : Bool :=
  y % 4 = 0 && (y % 100 != 0 || y % 400 = 0)

/-- Days in a month, per Python `datetime.date` validation. -/
def daysInMonth (y m : Nat) : Nat :=
  if m = 2 then (if isLeap y then 29 else 28)
  else if m = 4 || m = 6 || m = 9 || m = 11 then 30
  else 31

/-- Model of the Python constructor `date(y, m, d)`: `none` models the
`ValueError` raised on out-of-range components. -/
def mkDate (y m d : Nat) : Option DateV :=
  if 1 ≤ y && y ≤ 9999 && 1 ≤ m && m ≤ 12 && 1 ≤ d && d ≤ daysInMonth y m then
    some ⟨y, m, d⟩
  else none

/-- A spreadsheet cell value as seen through openpyxl / pandas:
empty, numeric, text, or a native date. -/
inductive Value where
  | vnone : Value
  | vnum : ℚ → Value
  | vstr : String → Value
  | vdate : DateV → Value
deriving DecidableEq

/-- Zero-padded decimal rendering (auxiliary for `str(date)`). -/
def padNat (k n : Nat) : String :=
  let l := natStr n
  String.mk (List.replicate (k - l.length) '0' ++ l)

/-- Model of Python `str` on a `datetime.date` (ISO form `yyyy-mm-dd`). -/
def dateStr (d : DateV) : String :=
  padNat 4 d.y ++ "-" ++ padNat 2 d.m ++ "-" ++ padNat 2 d.d

/-- Model of Python `str(x)` on cell values. -/
def pyStr (v : Value) : String :=
  match v with
  | .vnone => "None"
  | .vnum q => decStr q
  | .vstr s => s
  | .vdate d => dateStr d

/-- Model of `re.match(r"^\d\x7b2\x7d/\d\x7b2\x7d/\d\x7b4\x7d$", s)` followed by
`d, m, y = map(int, s.split("/"))` (src/app.py lines 38-39): succeeds exactly
on ten-character strings of shape two digits, slash, two digits, slash, four
digits, and returns the literal day/month/year numbers. -/
def extractDMY (l : List Char) : Option (Nat × Nat × Nat) :=
  match l with
  | [a, b, s1, c, d, s2, e, f, g, h] =>
    if s1 = '/' && s2 = '/' && a.isDigit && b.isDigit && c.isDigit && d.isDigit
        && e.isDigit && f.isDigit && g.isDigit && h.isDigit then
      some (natOfDigits [a, b], natOfDigits [c, d], natOfDigits [e, f, g, h])
    else none
  | _ => none

/-- Embedding of `parse_date_cell` (src/app.py lines 22-50).  `pp` is the
external pandas fallback `pd.to_datetime(s, dayfirst=True, errors="coerce")`
(its exceptions and `NaT` results collapse to `none`).  `Except.error` models
an uncaught `ValueError` escaping from the `date(y, m, d)` constructor. -/
def parse_date_cell (pp : String → Option DateV) (x : Value) :
    Except String (Option DateV) :=
  match x with
  | .vdate d => .ok (some d)
  | .vnone => .ok none
  | _ =>
    let l := pyStrip (pyStr x).data
    if l.isEmpty then .ok none
    else
      match extractDMY l with
      | some (d, m, y) =>
        match mkDate y m d with
        | some dt => .ok (some dt)
        | none => .error ("ValueError")
      | none => .ok (pp (String.mk l))

/-! ## Data model for `fill_template_from_days` -/

/-- Template layout constants (src/app.py lines 13-15). -/
def HEADER_ROW : Nat := 2

/-- Employee-identifier column in the template (column B). -/
def ID_COL : Nat := 2

/-- First date column in the template (column D). -/
def FIRST_DATE_COL : Nat := 4

/-- The seven leave categories of the day file (src/app.py lines 102-108). -/
inductive LeaveCat where
  | no_in | no_out | absent | sick | personal | vacation | ordination
deriving DecidableEq

/-- The five summary categories of the template (src/app.py lines 149-155). -/
inductive SCat where
  | absent | sick | personal | vacation | ordination
deriving DecidableEq

/-- Per-record leave counts: `none` models a missing column, a `NaN`, or a
value `float(...)` fails on; `some q` a numeric count. -/
structure Counts7 where
  no_in : Option ℚ
  no_out : Option ℚ
  absent : Option ℚ
  sick : Option ℚ
  personal : Option ℚ
  vacation : Option ℚ
  ordination : Option ℚ
deriving DecidableEq

/-- Field access for `Counts7` by category. -/
def getCount (k : Counts7) : LeaveCat → Option ℚ
  | .no_in => k.no_in
  | .no_out => k.no_out
  | .absent => k.absent
  | .sick => k.sick
  | .personal => k.personal
  | .vacation => k.vacation
  | .ordination => k.ordination

/-- One attendance record as produced by `load_day_file`: identifier and name
already string-ified and stripped, the date successfully parsed (rows without
a valid date are dropped by the reader), optional time-in value, optional
late-minutes number, leave counts and optional comment text. -/
structure Rec where
  empId : String
  date : DateV
  timeIn : Option Value
  late : Option ℚ
  counts : Counts7
  comment : Option String
deriving DecidableEq

/-- A worksheet cell: its value and whether the run has applied the yellow
highlight fill to it. -/
structure Cell where
  val : Value
  yellow : Bool
deriving DecidableEq

/-- A worksheet: cell contents indexed by (row, column), 1-based, plus the
openpyxl `max_row` / `max_column` bounds. -/
structure Ws where
  cells : Nat → Nat → Cell
  maxRow : Nat
  maxCol : Nat

/-- Overwrite one cell of a worksheet. -/
def Ws.write (ws : Ws) (r c : Nat) (cell : Cell) : Ws :=
  { ws with cells := fun r' c' => if r' = r ∧ c' = c then cell else ws.cells r' c' }

/-- Python-`dict` assignment `d[k] = v`: replace in place if the key exists,
else append (preserving insertion order, as Python dicts do). -/
def dictInsert {α β : Type} [DecidableEq α] :
    List (α × β) → α → β → List (α × β)
  | [], k, v => [(k, v)]
  | (k', v') :: t, k, v =>
    if k' = k then (k, v) :: t else (k', v') :: dictInsert t k v

/-- Python-`dict` lookup `d.get(k)`. -/
def dlookup {α β : Type} [DecidableEq α] : List (α × β) → α → Option β
  | [], _ => none
  | (k', v') :: t, k => if k' = k then some v' else dlookup t k

/-- Summary columns discovered in the template header
(src/app.py lines 149-155): one optional column index per summary category. -/
structure SCols where
  absent : Option Nat
  sick : Option Nat
  personal : Option Nat
  vacation : Option Nat
  ordination : Option Nat
deriving DecidableEq

/-- Field access for `SCols` by category. -/
def slookup (sc : SCols) : SCat → Option Nat
  | .absent => sc.absent
  | .sick => sc.sick
  | .personal => sc.personal
  | .vacation => sc.vacation
  | .ordination => sc.ordination

/-- `any(summary_cols.values())` (src/app.py line 315): column indices are
1-based hence truthy, `None` falsy. -/
def anySummary (sc : SCols) : Bool :=
  sc.absent.isSome || sc.sick.isSome || sc.personal.isSome
    || sc.vacation.isSome || sc.ordination.isSome

/-- Per-row summary counters (src/app.py line 317). -/
structure Counts5 where
  absent : Nat
  sick : Nat
  personal : Nat
  vacation : Nat
  ordination : Nat
deriving DecidableEq

/-- Field access for `Counts5` by category. -/
def cField (k : Counts5) : SCat → Nat
  | .absent => k.absent
  | .sick => k.sick
  | .personal => k.personal
  | .vacation => k.vacation
  | .ordination => k.ordination

/-! ## Header scans (src/app.py lines 145-207) -/

/-- Columns scanned for date headers and the late column:
`range(FIRST_DATE_COL, max_col + 1)` (src/app.py line 159). -/
def colList (ws : Ws) : List Nat :=
  List.range' FIRST_DATE_COL (ws.maxCol + 1 - FIRST_DATE_COL)

/-- Rows scanned below the header: `range(HEADER_ROW + 1, max_row + 1)`
(src/app.py lines 199 and 316). -/
def rowList (ws : Ws) : List Nat :=
  List.range' (HEADER_ROW + 1) (ws.maxRow + 1 - (HEADER_ROW + 1))

/-- Loop body accumulation for the date/late header scan
(src/app.py lines 159-169): parse each header cell as a date, and record the
first column whose text contains a late marker. -/
def scanHeadersAux (pp : String → Option DateV) (ws : Ws) :
    List Nat → List (DateV × Nat) → Option Nat →
    Except String (List (DateV × Nat) × Option Nat)
  | [], dcm, late => .ok (dcm, late)
  | c :: rest, dcm, late =>
    match (ws.cells HEADER_ROW c).val with
    | .vnone => scanHeadersAux pp ws rest dcm late
    | v =>
      match parse_date_cell pp v with
      | .error e => .error e
      | .ok od =>
        let dcm' := match od with
          | some dt => dictInsert dcm dt c
          | none => dcm
        let text := pyStr v
        let late' := match late with
          | some l => some l
          | none =>
            if strContains text ("สาย") || strContains (lowerStr text) ("late")
            then some c else none
        scanHeadersAux pp ws rest dcm' late'

/-- The date-column map and late column of a template
(src/app.py lines 146-169). -/
def scanHeaders (pp : String → Option DateV) (ws : Ws) :
    Except String (List (DateV × Nat) × Option Nat) :=
  scanHeadersAux pp ws (colList ws) [] none

/-- One step of the summary-header scan: the `elif` chain of
src/app.py lines 177-186 (each later matching column overwrites). -/
def scanSummaryStep (sc : SCols) (text : String) (c : Nat) : SCols :=
  if strContains text ("ขาดงาน") then { sc with absent := some c }
  else if strContains text ("ลาป่วย") then { sc with sick := some c }
  else if strContains text ("ลากิจ") then { sc with personal := some c }
  else if strContains text ("พักร้อน") then { sc with vacation := some c }
  else if strContains text ("บวช") then { sc with ordination := some c }
  else sc

/-- Summary-column discovery over `range(1, max_col + 1)`
(src/app.py lines 172-186). -/
def scanSummary (ws : Ws) : SCols :=
  (List.range' 1 ws.maxCol).foldl
    (fun sc c =>
      match (ws.cells HEADER_ROW c).val with
      | .vnone => sc
      | v => scanSummaryStep sc (pyStr v) c)
    ⟨none, none, none, none, none⟩

/-- Employee index: scan `ID_COL` below the header, skipping blank cells,
later duplicate identifiers overwriting (src/app.py lines 198-205). -/
def scanEmployees (ws : Ws) : List (String × Nat) :=
  (rowList ws).foldl
    (fun idx r =>
      match (ws.cells r ID_COL).val with
      | .vnone => idx
      | v =>
        let e := pyStripS (pyStr v)
        if e.isEmpty then idx else dictInsert idx e r)
    []

/-! ## Per-record processing (src/app.py lines 209-310) -/

/-- The tolerance `1e-6` of src/app.py line 277. -/
def eps : ℚ := 1 / 1000000

/-- The `label_map` of src/app.py lines 251-259, in its (insertion-ordered)
iteration order. -/
def labelOrder : List (LeaveCat × String) :=
  [(.no_in, "ไม่ตอกเข้า"), (.no_out, "ไม่ตอกออก"), (.absent, "ขาดงาน"),
   (.sick, "ลาป่วย"), (.personal, "ลากิจ"), (.vacation, "พักร้อน"),
   (.ordination, "บวชคลอด")]

/-- The effective comment of a record: present and non-blank after `strip`
(src/app.py lines 245-249). -/
def effComment (rec : Rec) : Option String :=
  match rec.comment with
  | none => none
  | some s =>
    let t := pyStripS s
    if t.isEmpty then none else some t

/-- One reason piece (src/app.py lines 264-285): skip missing / non-numeric /
zero counts; render the count as an integer when within `1e-6` of its rounded
value, else as its decimal; bare label exactly when the rendered count string
is `"1"`. -/
def pieceFor (label : String) : Option ℚ → Option String
  | none => none
  | some q =>
    if q = 0 then none
    else
      let numStr := if pyAbs (q - (pyRound q : ℚ)) < eps then pyIntStr (pyRound q)
        else decStr q
      some (if numStr = "1" then label else label ++ "(" ++ numStr ++ ")")

/-- The `pieces` list built from the reason columns
(src/app.py lines 261-285). -/
def buildPieces (rec : Rec) : List String :=
  labelOrder.filterMap (fun p => pieceFor p.2 (getCount rec.counts p.1))

/-- `float(existing) if existing is not None else 0.0`, with the
`try/except` collapsing failures to `0.0` (src/app.py lines 305-309). -/
def pyFloatOfValue (v : Value) : ℚ :=
  match v with
  | .vnone => 0
  | .vnum q => q
  | .vstr s => (pyFloat s).getD 0
  | .vdate _ => 0

/-- Resolution of a record to its destination (row, column): both the date
and the (re-stripped) employee id must be in the template maps, else the
record is skipped (src/app.py lines 217-230). -/
def resolvesTo (dcm : List (DateV × Nat)) (idx : List (String × Nat))
    (rec : Rec) : Option (Nat × Nat) :=
  match dlookup dcm rec.date, dlookup idx (pyStripS rec.empId) with
  | some c, some r => some (r, c)
  | _, _ => none

/-- The text chosen for a highlighted (no time-in) cell
(src/app.py lines 244-294): the non-blank comment verbatim when present,
else the joined reason pieces, else the default absent label. -/
def cellText (rec : Rec) : String :=
  match effComment rec with
  | some cs => cs
  | none =>
    let pieces := buildPieces rec
    if pieces.isEmpty then ("ขาดงาน")
    else String.intercalate (" ") pieces

/-- Processing of one attendance record (src/app.py lines 216-310): the cell
value decision (time-in / comment / reason pieces / default absent label, the
yellow fill in the no-time-in branch) followed by late-minute accumulation. -/
def processRecord (dcm : List (DateV × Nat)) (idx : List (String × Nat))
    (lateCol : Option Nat) (acc : Ws × Nat) (rec : Rec) : Ws × Nat :=
  match resolvesTo dcm idx rec with
  | none => acc
  | some (rowIdx, colIdx) =>
    let ws := acc.1
    let tally := acc.2
    let cell := ws.cells rowIdx colIdx
    let step1 : Ws × Nat :=
      match rec.timeIn with
      | some v =>
        (ws.write rowIdx colIdx { cell with val := .vstr (pyStr v) }, tally + 1)
      | none =>
        (ws.write rowIdx colIdx { val := .vstr (cellText rec), yellow := true },
          tally)
    match lateCol with
    | none => step1
    | some lc =>
      match rec.late with
      | none => step1
      | some q =>
        if q = 0 then step1
        else
          let ws1 := step1.1
          let old := ws1.cells rowIdx lc
          (ws1.write rowIdx lc
            { old with val := .vnum (pyFloatOfValue old.val + q) }, step1.2)

/-- Processing all records of one day file, in file order
(src/app.py lines 216-310). -/
def runRecords (dcm : List (DateV × Nat)) (idx : List (String × Nat))
    (lateCol : Option Nat) (acc : Ws × Nat) (recs : List Rec) : Ws × Nat :=
  recs.foldl (processRecord dcm idx lateCol) acc

/-- Processing all day files in caller order (src/app.py line 213). -/
def runDays (dcm : List (DateV × Nat)) (idx : List (String × Nat))
    (lateCol : Option Nat) (acc : Ws × Nat) (files : List (List Rec)) :
    Ws × Nat :=
  files.foldl (fun a f => runRecords dcm idx lateCol a f) acc

/-! ## Summary recomputation (src/app.py lines 314-338) -/

/-- The five independent marker tests applied to one date-cell text
(src/app.py lines 325-334). -/
def countStep (k : Counts5) (s : String) : Counts5 :=
  let k1 := if strContains s ("ขาดงาน") then { k with absent := k.absent + 1 } else k
  let k2 := if strContains s ("ป่วย") then { k1 with sick := k1.sick + 1 } else k1
  let k3 := if strContains s ("กิจ") then { k2 with personal := k2.personal + 1 } else k2
  let k4 := if strContains s ("พักร้อน") then { k3 with vacation := k3.vacation + 1 } else k3
  if strContains s ("บวช") then { k4 with ordination := k4.ordination + 1 } else k4

/-- Per-row counter recomputation over the date columns
(src/app.py lines 317-334): skip empty cells, apply the marker tests to
`str(v)` of each date-column cell. -/
def rowCounts (ws : Ws) (dcv : List Nat) (r : Nat) : Counts5 :=
  dcv.foldl
    (fun k c =>
      match (ws.cells r c).val with
      | .vnone => k
      | v => countStep k (pyStr v))
    ⟨0, 0, 0, 0, 0⟩

/-- Write one counter into its summary column when that column was
discovered (src/app.py lines 336-338). -/
def writeSum (ws : Ws) (r : Nat) (oc : Option Nat) (n : Nat) : Ws :=
  match oc with
  | none => ws
  | some c => ws.write r c { ws.cells r c with val := .vnum n }

/-- The summary pass over one row: compute the row counters, then write them
into the discovered summary columns in dict order
(src/app.py lines 317-338). -/
def rowPass (ws : Ws) (dcv : List Nat) (scols : SCols) (r : Nat) : Ws :=
  let k := rowCounts ws dcv r
  let w1 := writeSum ws r scols.absent k.absent
  let w2 := writeSum w1 r scols.sick k.sick
  let w3 := writeSum w2 r scols.personal k.personal
  let w4 := writeSum w3 r scols.vacation k.vacation
  writeSum w4 r scols.ordination k.ordination

/-- The full summary recomputation step (src/app.py lines 315-338), guarded
by `any(summary_cols.values())`. -/
def applySummary (ws : Ws) (dcv : List Nat) (scols : SCols) : Ws :=
  if anySummary scols then
    (rowList ws).foldl (fun w r => rowPass w dcv scols r) ws
  else ws

/-! ## The whole fill run -/

/-- The in-memory part of `fill_template_from_days`
(src/app.py lines 142-338): header scans, the fatal check when no date
column was found (line 194, message of line 195), employee indexing,
per-record processing and summary recomputation.  Returns the final
worksheet and the present-cells tally `total_matches`. -/
def fillCore (pp : String → Option DateV) (ws0 : Ws)
    (days : List (List Rec)) : Except String (Ws × Nat) :=
  match scanHeaders pp ws0 with
  | .error e => .error e
  | .ok (dcm, lateCol) =>
    let scols := scanSummary ws0
    if dcm.isEmpty then .error ("ไม่พบหัวคอลัมน์วันที่ใน template")
    else
      let idx := scanEmployees ws0
      let run := runDays dcm idx lateCol (ws0, 0) days
      .ok (applySummary run.1 (dcm.map Prod.snd) scols, run.2)

/-- File-system level embedding of `fill_template_from_days`
(src/app.py lines 128-341): delete any file at the output path
(lines 137-138), copy the template bytes there (line 140), run the core, and
save the workbook on success (line 340).  The file system is a map from path
to workbook content; a missing template makes `copyfile` fail. -/
def fill_template_from_days (pp : String → Option DateV)
    (fs : String → Option Ws) (template_path : String)
    (day_files : List (List Rec)) (output_path : String) :
    (String → Option Ws) × Except String Nat :=
  let fs1 : String → Option Ws := fun p => if p = output_path then none else fs p
  match fs1 template_path with
  | none => (fs1, .error ("FileNotFoundError"))
  | some w =>
    let fs2 : String → Option Ws := fun p => if p = output_path then some w else fs1 p
    match fillCore pp w day_files with
    | .error e => (fs2, .error e)
    | .ok (ws', tally) =>
      (fun p => if p = output_path then some ws' else fs2 p, .ok tally)

/-! ## String helper lemmas -/

theorem leadMatch_iff : ∀ needle hay : List Char,
    leadMatch needle hay = true ↔ ∃ q, hay = needle ++ q
  | [], hay => by simp [leadMatch]
  | _ :: _, [] => by simp [leadMatch]
  | a :: as, b :: bs => by
    simp only [leadMatch, Bool.and_eq_true, decide_eq_true_eq]
    constructor
    · rintro ⟨rfl, h⟩
      obtain ⟨q, rfl⟩ := (leadMatch_iff as bs).1 h
      exact ⟨q, rfl⟩
    · rintro ⟨q, h⟩
      injection h with h1 h2
      subst h1
      exact ⟨rfl, (leadMatch_iff as bs).2 ⟨q, h2⟩⟩

theorem listContains_iff : ∀ hay needle : List Char,
    listContains hay needle = true ↔ ∃ p q, hay = p ++ needle ++ q
  | [], needle => by
    simp only [listContains, List.isEmpty_iff]
    constructor
    · intro h
      exact ⟨[], [], by simp [h]⟩
    · rintro ⟨p, q, hpq⟩
      rcases List.append_eq_nil.1 hpq.symm with ⟨h1, h2⟩
      exact (List.append_eq_nil.1 h1).2
  | h :: t, needle => by
    simp only [listContains, Bool.or_eq_true]
    rw [leadMatch_iff, listContains_iff t needle]
    constructor
    · rintro (⟨q, hq⟩ | ⟨p, q, hpq⟩)
      · exact ⟨[], q, by simp [hq]⟩
      · exact ⟨h :: p, q, by simp [hpq]⟩
    · rintro ⟨p, q, hpq⟩
      cases p with
      | nil => exact Or.inl ⟨q, by simpa using hpq⟩
      | cons x xs =>
        injection hpq with h1 h2
        exact Or.inr ⟨xs, q, h2⟩

theorem listContains_trans {s b a : List Char}
    (h1 : listContains b a = true) (h2 : listContains s b = true) :
    listContains s a = true := by
  rw [listContains_iff] at h1 h2 ⊢
  obtain ⟨p1, q1, rfl⟩ := h1
  obtain ⟨p2, q2, rfl⟩ := h2
  exact ⟨p2 ++ p1, q1 ++ q2, by simp⟩

theorem strContains_trans {s b a : String}
    (h1 : strContains b a = true) (h2 : strContains s b = true) :
    strContains s a = true :=
  listContains_trans h1 h2

theorem dropWhile_eq_self_of_all {p : Char → Bool} :
    ∀ l : List Char, (∀ c ∈ l, p c = false) → l.dropWhile p = l
  | [], _ => rfl
  | c :: t, h => by
    simp [List.dropWhile_cons, h c (by simp)]

theorem pyStrip_eq_self {l : List Char}
    (h : ∀ c ∈ l, isSpaceChar c = false) : pyStrip l = l := by
  unfold pyStrip
  rw [dropWhile_eq_self_of_all l h,
    dropWhile_eq_self_of_all l.reverse (fun c hc => h c (List.mem_reverse.1 hc)),
    List.reverse_reverse]

theorem isSpaceChar_eq_false_of_isDigit {c : Char} (h : c.isDigit = true) :
    isSpaceChar c = false := by
  rcases Bool.eq_false_or_eq_true (isSpaceChar c) with ht | hf
  · exfalso
    unfold isSpaceChar at ht
    simp only [Bool.or_eq_true, decide_eq_true_eq] at ht
    rcases ht with ((((h1 | h1) | h1) | h1) | h1) | h1 <;> subst h1 <;>
      exact absurd h (by decide)
  · exact hf

theorem isSpaceChar_slash : isSpaceChar '/' = false := by decide

/-! ## Integer rendering lemmas -/

theorem natStrAux_ne_nil (fuel n : Nat) : natStrAux (fuel + 1) n ≠ [] := by
  unfold natStrAux
  split
  · simp
  · intro h
    have := congrArg List.length h
    simp at this

theorem natStr_ne_nil (n : Nat) : natStr n ≠ [] :=
  natStrAux_ne_nil n n

theorem natStr_eq_one_digit {n : Nat} (h : natStr n = ['1']) : n = 1 := by
  unfold natStr natStrAux at h
  split at h
  · rename_i hlt
    interval_cases n <;> simp_all [digitCharOf]
  · exfalso
    rename_i hge
    have hn : 10 ≤ n := by omega
    have hlen := congrArg List.length h
    simp at hlen
    rcases Nat.exists_eq_add_of_le hn with ⟨k, rfl⟩
    have h2 : 10 + k = (9 + k) + 1 := by omega
    rw [h2] at hlen
    exact natStrAux_ne_nil _ _ hlen

theorem pyIntStr_eq_one {z : ℤ} (h : pyIntStr z = "1") : z = 1 := by
  unfold pyIntStr at h
  split at h
  · exfalso
    have hd := congrArg String.data h
    simp only [String.data] at hd
    have : '-' :: natStr z.natAbs = ['1'] := hd
    injection this with h1 _
    exact absurd h1 (by decide)
  · rename_i hnn
    have hd := congrArg String.data h
    simp only [String.data] at hd
    have h1 : z.toNat = 1 := natStr_eq_one_digit hd
    omega

/-! ## Decimal rendering and rounding lemmas -/

theorem data_append (a b : String) : (a ++ b).data = a.data ++ b.data := rfl

theorem dot_mem_decStrNN (q : ℚ) : '.' ∈ (decStrNN q).data := by
  unfold decStrNN
  simp only [data_append, List.mem_append]
  left
  right
  simp

theorem dot_mem_decStr (q : ℚ) : '.' ∈ (decStr q).data := by
  unfold decStr
  split
  · have h := dot_mem_decStrNN (-q)
    simp only [data_append, List.mem_append]
    right
    exact h
  · exact dot_mem_decStrNN q

theorem decStr_ne_one (q : ℚ) : decStr q ≠ "1" := by
  intro h
  have hd := congrArg String.data h
  have hm := dot_mem_decStr q
  rw [hd] at hm
  exact absurd hm (by decide)

theorem pyAbs_eq_abs (q : ℚ) : pyAbs q = |q| := by
  unfold pyAbs
  split
  · rename_i h
    rw [abs_of_neg h]
  · rename_i h
    push_neg at h
    rw [abs_of_nonneg h]

theorem pyRound_eq_one_of_near {q : ℚ} (h : |q - 1| < eps) : pyRound q = 1 := by
  have hb := abs_lt.1 h
  have h1 : 1 - eps < q := by linarith [hb.1]
  have h2 : q < 1 + eps := by linarith [hb.2]
  have heps : eps = 1 / 1000000 := rfl
  rw [heps] at h1 h2
  unfold pyRound
  by_cases hq : 1 ≤ q
  · have hf : ⌊q⌋ = 1 := by
      rw [Int.floor_eq_iff]
      constructor
      · exact_mod_cast hq
      · push_cast
        linarith
    rw [hf]
    have hlt : q - ((1 : ℤ) : ℚ) < 1/2 := by push_cast; linarith
    rw [if_pos hlt]
  · push_neg at hq
    have hf : ⌊q⌋ = 0 := by
      rw [Int.floor_eq_iff]
      constructor
      · push_cast
        linarith
      · push_cast
        linarith
    rw [hf]
    have hgt : 1/2 < q - ((0 : ℤ) : ℚ) := by push_cast; linarith
    rw [if_neg (by linarith), if_pos hgt]
    decide

theorem near_one_of_pyRound {q : ℚ} (hin : |q - (pyRound q : ℚ)| < eps)
    (h1 : pyRound q = 1) : |q - 1| < eps := by
  rw [h1] at hin
  push_cast at hin
  exact hin

/-! ## Spec-worded piece construction (for claim C3) -/

/-- The count rendering exactly as the spec words it: integer form when
within `1e-6` of its rounded value, else the literal decimal. -/
def specRender (q : ℚ) : String :=
  if pyAbs (q - (pyRound q : ℚ)) < eps then pyIntStr (pyRound q) else decStr q

/-- One reason piece as the (amended) spec words it: skip missing or zero
counts, bare label exactly when the count is within `1e-6` of `1`, else
label followed by the rendered count in parentheses. -/
def specPiece (label : String) : Option ℚ → Option String
  | none => none
  | some q =>
    if q = 0 then none
    else some (if pyAbs (q - 1) < eps then label
      else label ++ "(" ++ specRender q ++ ")")

/-- The pieces list as the (amended) spec words it: iterate the seven
categories in the fixed priority order. -/
def specPieces (rec : Rec) : List String :=
  labelOrder.filterMap (fun p => specPiece p.2 (getCount rec.counts p.1))

theorem pieceFor_eq_specPiece (label : String) (oq : Option ℚ) :
    pieceFor label oq = specPiece label oq := by
  cases oq with
  | none => rfl
  | some q =>
    unfold pieceFor specPiece specRender
    by_cases hz : q = 0
    · simp [hz]
    · simp only [hz, if_false, if_neg, not_false_iff]
      by_cases hw : pyAbs (q - (pyRound q : ℚ)) < eps
      · simp only [if_pos hw]
        rw [pyAbs_eq_abs] at hw
        by_cases h1 : pyRound q = 1
        · have hnear : pyAbs (q - 1) < eps := by
            rw [pyAbs_eq_abs]
            exact near_one_of_pyRound hw h1
          rw [h1]
          have hone : pyIntStr 1 = "1" := rfl
          simp [hone, hnear]
        · have hnear : ¬pyAbs (q - 1) < eps := by
            rw [pyAbs_eq_abs]
            exact fun hc => h1 (pyRound_eq_one_of_near hc)
          have hs : ¬pyIntStr (pyRound q) = "1" := fun hc => h1 (pyIntStr_eq_one hc)
          simp [hs, hnear]
      · have hnear : ¬pyAbs (q - 1) < eps := by
          rw [pyAbs_eq_abs]
          rw [pyAbs_eq_abs] at hw
          intro hc
          have h1 := pyRound_eq_one_of_near hc
          rw [h1] at hw
          push_cast at hw
          exact hw hc
        have hs : ¬decStr q = "1" := decStr_ne_one q
        simp [hs, hnear, hw]

theorem buildPieces_eq_specPieces (rec : Rec) :
    buildPieces rec = specPieces rec := by
  unfold buildPieces specPieces
  have hf : (fun p : LeaveCat × String => pieceFor p.2 (getCount rec.counts p.1))
      = (fun p => specPiece p.2 (getCount rec.counts p.1)) :=
    funext fun p => pieceFor_eq_specPiece p.2 _
  rw [hf]

/-! ## Worksheet state lemmas -/

theorem Ws.write_read_self (ws : Ws) (r c : Nat) (cell : Cell) :
    (ws.write r c cell).cells r c = cell := by
  simp [Ws.write]

theorem Ws.write_read_other {ws : Ws} {r c r' c' : Nat} {cell : Cell}
    (h : ¬(r' = r ∧ c' = c)) :
    (ws.write r c cell).cells r' c' = ws.cells r' c' := by
  simp only [Ws.write]
  rw [if_neg h]

theorem Ws.write_maxRow (ws : Ws) (r c : Nat) (cell : Cell) :
    (ws.write r c cell).maxRow = ws.maxRow := rfl

theorem dlookup_mem_vals {α β : Type} [DecidableEq α] :
    ∀ {l : List (α × β)} {k : α} {v : β},
      dlookup l k = some v → v ∈ l.map Prod.snd
  | [], _, _, h => by simp [dlookup] at h
  | (k', v') :: t, k, v, h => by
    simp only [dlookup] at h
    by_cases hk : k' = k
    · rw [if_pos hk] at h
      injection h with h1
      simp [h1]
    · rw [if_neg hk] at h
      simp only [List.map_cons, List.mem_cons]
      exact Or.inr (dlookup_mem_vals h)

/-! ## Per-record processing lemmas -/

theorem processRecord_timeIn {dcm : List (DateV × Nat)} {idx : List (String × Nat)}
    {lcOpt : Option Nat} {ws : Ws} {tally : Nat} {rec : Rec} {v : Value}
    {r c : Nat}
    (hres : resolvesTo dcm idx rec = some (r, c))
    (hti : rec.timeIn = some v)
    (hlc : lcOpt ≠ some c) :
    (processRecord dcm idx lcOpt (ws, tally) rec).1.cells r c
        = { ws.cells r c with val := .vstr (pyStr v) }
      ∧ (processRecord dcm idx lcOpt (ws, tally) rec).2 = tally + 1 := by
  unfold processRecord
  rw [hres, hti]
  cases lcOpt with
  | none =>
    exact ⟨Ws.write_read_self _ _ _ _, rfl⟩
  | some lc =>
    have hlc' : c ≠ lc := fun hc => hlc (by rw [hc])
    cases hl : rec.late with
    | none => exact ⟨Ws.write_read_self _ _ _ _, rfl⟩
    | some q =>
      by_cases hq : q = 0
      · simp only [hq, if_pos rfl]
        exact ⟨Ws.write_read_self _ _ _ _, by trivial⟩
      · simp only [if_neg hq]
        refine ⟨?_, by trivial⟩
        rw [Ws.write_read_other (fun hand => hlc' hand.2)]
        exact Ws.write_read_self _ _ _ _

theorem processRecord_noTimeIn {dcm : List (DateV × Nat)} {idx : List (String × Nat)}
    {lcOpt : Option Nat} {ws : Ws} {tally : Nat} {rec : Rec} {r c : Nat}
    (hres : resolvesTo dcm idx rec = some (r, c))
    (hti : rec.timeIn = none)
    (hlc : lcOpt ≠ some c) :
    (processRecord dcm idx lcOpt (ws, tally) rec).1.cells r c
        = { val := .vstr (cellText rec), yellow := true }
      ∧ (processRecord dcm idx lcOpt (ws, tally) rec).2 = tally := by
  unfold processRecord
  rw [hres, hti]
  cases lcOpt with
  | none =>
    exact ⟨Ws.write_read_self _ _ _ _, rfl⟩
  | some lc =>
    have hlc' : c ≠ lc := fun hc => hlc (by rw [hc])
    cases hl : rec.late with
    | none => exact ⟨Ws.write_read_self _ _ _ _, rfl⟩
    | some q =>
      by_cases hq : q = 0
      · simp only [hq, if_pos rfl]
        exact ⟨Ws.write_read_self _ _ _ _, by trivial⟩
      · simp only [if_neg hq]
        refine ⟨?_, by trivial⟩
        rw [Ws.write_read_other (fun hand => hlc' hand.2)]
        exact Ws.write_read_self _ _ _ _

theorem processRecord_frame {dcm : List (DateV × Nat)} {idx : List (String × Nat)}
    {lcOpt : Option Nat} {acc : Ws × Nat} {rec : Rec} {r c : Nat}
    (hres : resolvesTo dcm idx rec ≠ some (r, c))
    (hlc : ∀ lc, lcOpt = some lc → c ≠ lc) :
    (processRecord dcm idx lcOpt acc rec).1.cells r c = acc.1.cells r c := by
  unfold processRecord
  cases hr : resolvesTo dcm idx rec with
  | none => rfl
  | some rc =>
    obtain ⟨r2, c2⟩ := rc
    have hne : ¬(r = r2 ∧ c = c2) := by
      rintro ⟨rfl, rfl⟩
      exact hres hr
    have hstep : ∀ cell : Cell, (acc.1.write r2 c2 cell).cells r c = acc.1.cells r c :=
      fun cell => Ws.write_read_other hne
    cases lcOpt with
    | none =>
      cases rec.timeIn with
      | some v => exact hstep _
      | none => exact hstep _
    | some lc =>
      have hclc : c ≠ lc := hlc lc rfl
      cases rec.late with
      | none =>
        cases rec.timeIn with
        | some v => exact hstep _
        | none => exact hstep _
      | some q =>
        by_cases hq : q = 0
        · simp only [hq, if_pos rfl]
          cases rec.timeIn with
          | some v => exact hstep _
          | none => exact hstep _
        · simp only [if_neg hq]
          cases rec.timeIn with
          | some v =>
            rw [Ws.write_read_other (fun hand => hclc hand.2)]
            exact hstep _
          | none =>
            rw [Ws.write_read_other (fun hand => hclc hand.2)]
            exact hstep _

theorem runRecords_frame {dcm : List (DateV × Nat)} {idx : List (String × Nat)}
    {lcOpt : Option Nat} {r c : Nat} :
    ∀ {recs : List Rec} {acc : Ws × Nat},
      (∀ rec ∈ recs, resolvesTo dcm idx rec ≠ some (r, c)) →
      (∀ lc, lcOpt = some lc → c ≠ lc) →
      (runRecords dcm idx lcOpt acc recs).1.cells r c = acc.1.cells r c
  | [], acc, _, _ => rfl
  | rec :: rest, acc, hres, hlc => by
    unfold runRecords
    rw [List.foldl_cons]
    have ih := @runRecords_frame dcm idx lcOpt r c rest
      (processRecord dcm idx lcOpt acc rec)
      (fun x hx => hres x (List.mem_cons_of_mem _ hx)) hlc
    unfold runRecords at ih
    rw [ih]
    exact processRecord_frame (hres rec (List.mem_cons_self _ _)) hlc

theorem runDays_eq_join (dcm : List (DateV × Nat)) (idx : List (String × Nat))
    (lcOpt : Option Nat) :
    ∀ (files : List (List Rec)) (acc : Ws × Nat),
      runDays dcm idx lcOpt acc files = runRecords dcm idx lcOpt acc files.flatten
  | [], acc => rfl
  | f :: fs, acc => by
    show runDays dcm idx lcOpt (runRecords dcm idx lcOpt acc f) fs
        = runRecords dcm idx lcOpt acc (f ++ fs.flatten)
    rw [runDays_eq_join dcm idx lcOpt fs]
    unfold runRecords
    rw [List.foldl_append]

/-! ## Late-minute accumulation (src/app.py lines 296-310) -/

/-- The late-minutes contribution of one record to row `r`: present exactly
when the record resolves to row `r` and carries a nonzero numeric late
value. -/
def lateContrib (dcm : List (DateV × Nat)) (idx : List (String × Nat))
    (r : Nat) (rec : Rec) : Option ℚ :=
  match resolvesTo dcm idx rec with
  | none => none
  | some (ri, _) =>
    if ri = r then
      match rec.late with
      | none => none
      | some q => if q = 0 then none else some q
    else none

/-- All late-minutes contributions of a record list to row `r`, in order. -/
def lateContribs (dcm : List (DateV × Nat)) (idx : List (String × Nat))
    (r : Nat) (recs : List Rec) : List ℚ :=
  recs.filterMap (lateContrib dcm idx r)

/-- Net effect of a sequence of late-minute accumulations on a cell: no
contribution leaves the cell alone; otherwise the cell holds the parsed
initial value plus the sum of the contributions. -/
def lateFoldCell (cell : Cell) (l : List ℚ) : Cell :=
  match l with
  | [] => cell
  | _ => { cell with val := .vnum (pyFloatOfValue cell.val + l.sum) }

theorem lateFoldCell_append_contrib (cell : Cell) (oq : Option ℚ) (rest : List ℚ) :
    lateFoldCell (lateFoldCell cell oq.toList) rest
      = lateFoldCell cell (oq.toList ++ rest) := by
  cases oq with
  | none => rfl
  | some q =>
    cases rest with
    | nil =>
      simp [lateFoldCell, Option.toList]
    | cons x xs =>
      simp only [Option.toList, lateFoldCell, List.cons_append, List.nil_append,
        List.sum_cons, List.sum_nil, pyFloatOfValue, add_zero]
      congr 1
      ring_nf

theorem processRecord_lateCell {dcm : List (DateV × Nat)} {idx : List (String × Nat)}
    {lc r : Nat} (hdc : lc ∉ dcm.map Prod.snd) (acc : Ws × Nat) (rec : Rec) :
    (processRecord dcm idx (some lc) acc rec).1.cells r lc
      = lateFoldCell (acc.1.cells r lc) (lateContrib dcm idx r rec).toList := by
  unfold processRecord lateContrib
  cases hr : resolvesTo dcm idx rec with
  | none => rfl
  | some rc =>
    obtain ⟨ri, ci⟩ := rc
    have hci : ci ∈ dcm.map Prod.snd := by
      unfold resolvesTo at hr
      cases hcol : dlookup dcm rec.date with
      | none => rw [hcol] at hr; cases hlk : dlookup idx (pyStripS rec.empId) <;>
          simp [hlk] at hr
      | some c0 =>
        rw [hcol] at hr
        cases hlk : dlookup idx (pyStripS rec.empId) with
        | none => simp [hlk] at hr
        | some r0 =>
          simp only [hlk] at hr
          injection hr with h1
          injection h1 with h2 h3
          subst h3
          exact dlookup_mem_vals hcol
    have hlcne : ci ≠ lc := fun hc => hdc (hc ▸ hci)
    -- the date-cell write never touches column lc
    have hdate : ∀ cell : Cell, (acc.1.write ri ci cell).cells r lc = acc.1.cells r lc :=
      fun cell => Ws.write_read_other (fun hand => hlcne (hand.2.symm))
    cases hl : rec.late with
    | none =>
      cases rec.timeIn with
      | some v => simpa [lateFoldCell] using hdate _
      | none => simpa [lateFoldCell] using hdate _
    | some q =>
      by_cases hq : q = 0
      · simp only [hq, if_pos rfl]
        by_cases hri : ri = r
        · subst hri
          simp only [if_pos rfl]
          cases rec.timeIn with
          | some v => simpa [lateFoldCell] using hdate _
          | none => simpa [lateFoldCell] using hdate _
        · simp only [if_neg hri]
          cases rec.timeIn with
          | some v => simpa [lateFoldCell] using hdate _
          | none => simpa [lateFoldCell] using hdate _
      · simp only [if_neg hq]
        by_cases hri : ri = r
        · subst hri
          cases rec.timeIn with
          | some v =>
            rw [Ws.write_read_self, hdate]
            simp [lateFoldCell]
          | none =>
            rw [Ws.write_read_self, hdate]
            simp [lateFoldCell]
        · simp only [if_neg hri]
          cases rec.timeIn with
          | some v =>
            rw [Ws.write_read_other (fun hand => hri (hand.1.symm))]
            simpa [lateFoldCell] using hdate _
          | none =>
            rw [Ws.write_read_other (fun hand => hri (hand.1.symm))]
            simpa [lateFoldCell] using hdate _

theorem runRecords_lateCell {dcm : List (DateV × Nat)} {idx : List (String × Nat)}
    {lc r : Nat} (hdc : lc ∉ dcm.map Prod.snd) :
    ∀ (recs : List Rec) (acc : Ws × Nat),
      (runRecords dcm idx (some lc) acc recs).1.cells r lc
        = lateFoldCell (acc.1.cells r lc) (lateContribs dcm idx r recs)
  | [], acc => rfl
  | rec :: rest, acc => by
    show (runRecords dcm idx (some lc)
        (processRecord dcm idx (some lc) acc rec) rest).1.cells r lc = _
    rw [runRecords_lateCell hdc rest _]
    rw [processRecord_lateCell hdc acc rec]
    rw [lateFoldCell_append_contrib]
    unfold lateContribs
    rw [List.filterMap_cons]
    cases lateContrib dcm idx r rec with
    | none => rfl
    | some q => rfl

theorem lateFoldCell_perm (cell : Cell) {l1 l2 : List ℚ} (h : l1.Perm l2) :
    lateFoldCell cell l1 = lateFoldCell cell l2 := by
  cases hl1 : l1 with
  | nil =>
    have : l2 = [] := by
      subst hl1
      exact h.nil_eq.symm
    rw [this]
  | cons x xs =>
    have hne : l2 ≠ [] := by
      intro hc
      rw [hl1, hc] at h
      have := h.length_eq
      simp at this
    cases hl2 : l2 with
    | nil => exact absurd hl2 hne
    | cons y ys =>
      rw [hl1, hl2] at h
      simp only [lateFoldCell]
      rw [h.sum_eq]

/-! ## Summary recomputation lemmas -/

theorem writeSum_some (ws : Ws) (r c n : Nat) :
    writeSum ws r (some c) n = ws.write r c { ws.cells r c with val := .vnum n } :=
  rfl

theorem writeSum_read_other {ws : Ws} {r : Nat} {oc : Option Nat} {n : Nat}
    {r' c' : Nat} (h : ∀ c0, oc = some c0 → ¬(r' = r ∧ c' = c0)) :
    (writeSum ws r oc n).cells r' c' = ws.cells r' c' := by
  cases oc with
  | none => rfl
  | some c0 =>
    rw [writeSum_some]
    exact Ws.write_read_other (h c0 rfl)

theorem rowPass_def (ws : Ws) (dcv : List Nat) (scols : SCols) (r : Nat) :
    rowPass ws dcv scols r
      = writeSum (writeSum (writeSum (writeSum (writeSum ws r scols.absent
          (rowCounts ws dcv r).absent) r scols.sick (rowCounts ws dcv r).sick)
          r scols.personal (rowCounts ws dcv r).personal)
          r scols.vacation (rowCounts ws dcv r).vacation)
          r scols.ordination (rowCounts ws dcv r).ordination := rfl

theorem rowPass_row_frame {ws : Ws} {dcv : List Nat} {scols : SCols}
    {r' r c : Nat} (h : r ≠ r') :
    (rowPass ws dcv scols r').cells r c = ws.cells r c := by
  rw [rowPass_def]
  have hno : ∀ (oc : Option Nat), ∀ c0, oc = some c0 → ¬(r = r' ∧ c = c0) :=
    fun _ _ _ hand => h hand.1
  rw [writeSum_read_other (hno _), writeSum_read_other (hno _),
    writeSum_read_other (hno _), writeSum_read_other (hno _),
    writeSum_read_other (hno _)]

theorem rowPass_col_frame {ws : Ws} {dcv : List Nat} {scols : SCols}
    {r' r c : Nat} (h : ∀ cat c0, slookup scols cat = some c0 → c0 ≠ c) :
    (rowPass ws dcv scols r').cells r c = ws.cells r c := by
  rw [rowPass_def]
  have hgen : ∀ oc : Option Nat, (∀ c0, oc = some c0 → c0 ≠ c) →
      ∀ c0, oc = some c0 → ¬(r = r' ∧ c = c0) :=
    fun _ hoc c0 h0 hand => hoc c0 h0 hand.2.symm
  rw [writeSum_read_other (hgen scols.ordination (h .ordination)),
    writeSum_read_other (hgen scols.vacation (h .vacation)),
    writeSum_read_other (hgen scols.personal (h .personal)),
    writeSum_read_other (hgen scols.sick (h .sick)),
    writeSum_read_other (hgen scols.absent (h .absent))]

theorem rowCounts_fold_eq {w1 w2 : Ws} {r : Nat} :
    ∀ (dcv : List Nat), (∀ c ∈ dcv, w1.cells r c = w2.cells r c) →
      ∀ (k : Counts5),
      dcv.foldl (fun k c => match (w1.cells r c).val with
        | .vnone => k
        | v => countStep k (pyStr v)) k
      = dcv.foldl (fun k c => match (w2.cells r c).val with
        | .vnone => k
        | v => countStep k (pyStr v)) k
  | [], _, _ => rfl
  | c :: t, h, k => by
    simp only [List.foldl_cons]
    rw [h c (List.mem_cons_self _ _)]
    exact rowCounts_fold_eq t (fun c0 hc0 => h c0 (List.mem_cons_of_mem _ hc0)) _

theorem rowCounts_congr {w1 w2 : Ws} {r : Nat} {dcv : List Nat}
    (h : ∀ c ∈ dcv, w1.cells r c = w2.cells r c) :
    rowCounts w1 dcv r = rowCounts w2 dcv r := by
  unfold rowCounts
  exact rowCounts_fold_eq dcv h _

theorem summaryFold_row_frame {dcv : List Nat} {scols : SCols} {r c : Nat} :
    ∀ (rows : List Nat) (w : Ws), r ∉ rows →
      ((rows.foldl (fun w rr => rowPass w dcv scols rr) w).cells r c) = w.cells r c
  | [], _, _ => rfl
  | rr :: rest, w, hnm => by
    simp only [List.foldl_cons]
    rw [summaryFold_row_frame rest _ (fun hc => hnm (List.mem_cons_of_mem _ hc))]
    exact rowPass_row_frame (fun hc => hnm (hc ▸ List.mem_cons_self _ _))

theorem summaryFold_col_frame {dcv : List Nat} {scols : SCols} {c : Nat}
    (h : ∀ cat c0, slookup scols cat = some c0 → c0 ≠ c) :
    ∀ (rows : List Nat) (w : Ws) (r : Nat),
      ((rows.foldl (fun w rr => rowPass w dcv scols rr) w).cells r c) = w.cells r c
  | [], _, _ => rfl
  | rr :: rest, w, r => by
    simp only [List.foldl_cons]
    rw [summaryFold_col_frame h rest _ r]
    exact rowPass_col_frame h

theorem applySummary_col_frame {ws : Ws} {dcv : List Nat} {scols : SCols}
    {r c : Nat} (h : ∀ cat c0, slookup scols cat = some c0 → c0 ≠ c) :
    (applySummary ws dcv scols).cells r c = ws.cells r c := by
  unfold applySummary
  split
  · exact summaryFold_col_frame h (rowList ws) ws r
  · rfl

theorem rowPass_at {ws : Ws} {dcv : List Nat} {scols : SCols} {r : Nat}
    {cat : SCat} {c : Nat}
    (hc : slookup scols cat = some c)
    (huniq : ∀ cat', slookup scols cat' = some c → cat' = cat) :
    (rowPass ws dcv scols r).cells r c
      = { ws.cells r c with val := .vnum (cField (rowCounts ws dcv r) cat) } := by
  have hno : ∀ (cat' : SCat), cat' ≠ cat →
      ∀ c0, slookup scols cat' = some c0 → ¬(r = r ∧ c = c0) := by
    intro cat' hne c0 hc0 hand
    apply hne
    apply huniq
    rw [← hand.2] at hc0
    exact hc0
  have hAbs : cat ≠ .absent → ∀ c0, scols.absent = some c0 → ¬(r = r ∧ c = c0) :=
    fun hne c0 h0 => hno .absent (fun he => hne he.symm) c0 h0
  have hSick : cat ≠ .sick → ∀ c0, scols.sick = some c0 → ¬(r = r ∧ c = c0) :=
    fun hne c0 h0 => hno .sick (fun he => hne he.symm) c0 h0
  have hPer : cat ≠ .personal → ∀ c0, scols.personal = some c0 → ¬(r = r ∧ c = c0) :=
    fun hne c0 h0 => hno .personal (fun he => hne he.symm) c0 h0
  have hVac : cat ≠ .vacation → ∀ c0, scols.vacation = some c0 → ¬(r = r ∧ c = c0) :=
    fun hne c0 h0 => hno .vacation (fun he => hne he.symm) c0 h0
  have hOrd : cat ≠ .ordination → ∀ c0, scols.ordination = some c0 → ¬(r = r ∧ c = c0) :=
    fun hne c0 h0 => hno .ordination (fun he => hne he.symm) c0 h0
  rw [rowPass_def]
  cases cat with
  | absent =>
    rw [writeSum_read_other (hOrd (by decide)), writeSum_read_other (hVac (by decide)),
      writeSum_read_other (hPer (by decide)), writeSum_read_other (hSick (by decide)),
      show scols.absent = some c from hc, writeSum_some, Ws.write_read_self]
    rfl
  | sick =>
    rw [writeSum_read_other (hOrd (by decide)), writeSum_read_other (hVac (by decide)),
      writeSum_read_other (hPer (by decide)),
      show scols.sick = some c from hc, writeSum_some, Ws.write_read_self,
      writeSum_read_other (hAbs (by decide))]
    rfl
  | personal =>
    rw [writeSum_read_other (hOrd (by decide)), writeSum_read_other (hVac (by decide)),
      show scols.personal = some c from hc, writeSum_some, Ws.write_read_self,
      writeSum_read_other (hSick (by decide)), writeSum_read_other (hAbs (by decide))]
    rfl
  | vacation =>
    rw [writeSum_read_other (hOrd (by decide)),
      show scols.vacation = some c from hc, writeSum_some, Ws.write_read_self,
      writeSum_read_other (hPer (by decide)), writeSum_read_other (hSick (by decide)),
      writeSum_read_other (hAbs (by decide))]
    rfl
  | ordination =>
    rw [show scols.ordination = some c from hc, writeSum_some, Ws.write_read_self,
      writeSum_read_other (hVac (by decide)), writeSum_read_other (hPer (by decide)),
      writeSum_read_other (hSick (by decide)), writeSum_read_other (hAbs (by decide))]
    rfl

theorem summaryFold_at {dcv : List Nat} {scols : SCols} {cat : SCat} {c : Nat}
    (hc : slookup scols cat = some c)
    (huniq : ∀ cat', slookup scols cat' = some c → cat' = cat) :
    ∀ (rows : List Nat) (w : Ws) (r : Nat), r ∈ rows → rows.Nodup →
      ((rows.foldl (fun w rr => rowPass w dcv scols rr) w).cells r c)
        = { w.cells r c with val := .vnum (cField (rowCounts w dcv r) cat) }
  | [], _, _, hmem, _ => absurd hmem (List.not_mem_nil _)
  | rr :: rest, w, r, hmem, hnd => by
    simp only [List.foldl_cons]
    have hnd1 : rr ∉ rest := (List.nodup_cons.1 hnd).1
    have hnd2 : rest.Nodup := (List.nodup_cons.1 hnd).2
    by_cases hrr : r = rr
    · subst hrr
      rw [summaryFold_row_frame rest _ hnd1]
      exact rowPass_at hc huniq
    · have hmem2 : r ∈ rest := by
        cases List.mem_cons.1 hmem with
        | inl h => exact absurd h hrr
        | inr h => exact h
      rw [summaryFold_at hc huniq rest _ r hmem2 hnd2]
      have hrow : ∀ c0, (rowPass w dcv scols rr).cells r c0 = w.cells r c0 :=
        fun c0 => rowPass_row_frame hrr
      rw [hrow c, rowCounts_congr (fun c0 _ => hrow c0)]

theorem applySummary_at {ws : Ws} {dcv : List Nat} {scols : SCols}
    {cat : SCat} {c r : Nat}
    (hany : anySummary scols = true)
    (hc : slookup scols cat = some c)
    (huniq : ∀ cat', slookup scols cat' = some c → cat' = cat)
    (hr : r ∈ rowList ws) :
    (applySummary ws dcv scols).cells r c
      = { ws.cells r c with val := .vnum (cField (rowCounts ws dcv r) cat) } := by
  unfold applySummary
  rw [if_pos hany]
  exact summaryFold_at hc huniq (rowList ws) ws r hr (List.nodup_range' _ _)

theorem rowCounts_after_applySummary {ws : Ws} {dcv : List Nat} {scols : SCols}
    {r : Nat}
    (hdisj : ∀ cat c0, slookup scols cat = some c0 → c0 ∉ dcv) :
    rowCounts (applySummary ws dcv scols) dcv r = rowCounts ws dcv r :=
  rowCounts_congr (fun _c hc =>
    applySummary_col_frame (fun cat c0 h0 hc0 => hdisj cat c0 h0 (hc0 ▸ hc)))

/-! ## Marker substrings (for claim C2) -/

/-- The Thai marker substring the header scan tests for each summary
category (src/app.py lines 177-186). -/
def headerMarker : SCat → String
  | .absent => "ขาดงาน"
  | .sick => "ลาป่วย"
  | .personal => "ลากิจ"
  | .vacation => "พักร้อน"
  | .ordination => "บวช"

/-- The Thai marker substring the summary recount tests against date-cell
text for each category (src/app.py lines 325-334). -/
def cellMarker : SCat → String
  | .absent => "ขาดงาน"
  | .sick => "ป่วย"
  | .personal => "กิจ"
  | .vacation => "พักร้อน"
  | .ordination => "บวช"

/-- Per-cell counter increments expressed through `cellMarker`: each category
gains one exactly when the cell text contains its cell marker. -/
def addHits (k : Counts5) (s : String) : Counts5 where
  absent := k.absent + (if strContains s (cellMarker .absent) then 1 else 0)
  sick := k.sick + (if strContains s (cellMarker .sick) then 1 else 0)
  personal := k.personal + (if strContains s (cellMarker .personal) then 1 else 0)
  vacation := k.vacation + (if strContains s (cellMarker .vacation) then 1 else 0)
  ordination := k.ordination + (if strContains s (cellMarker .ordination) then 1 else 0)

theorem countStep_eq_addHits (k : Counts5) (s : String) :
    countStep k s = addHits k s := by
  unfold countStep addHits cellMarker
  split_ifs <;> rfl

theorem scanSummaryStep_assigns {sc : SCols} {text : String} {c : Nat}
    (cat : SCat)
    (h : slookup (scanSummaryStep sc text c) cat ≠ slookup sc cat) :
    strContains text (headerMarker cat) = true := by
  cases cat <;> unfold scanSummaryStep at h <;> split_ifs at h <;>
    simp_all [slookup, headerMarker]

/-! ## Strict date-string parsing lemmas (for claim C5) -/

theorem extractDMY_chars {l : List Char} {t : Nat × Nat × Nat}
    (h : extractDMY l = some t) :
    ∀ ch ∈ l, ch.isDigit = true ∨ ch = '/' := by
  unfold extractDMY at h
  split at h
  · rename_i a b s1 c d s2 e f g hh
    split_ifs at h with hcond
    simp only [Bool.and_eq_true, decide_eq_true_eq] at hcond
    obtain ⟨⟨⟨⟨⟨⟨⟨⟨⟨hs1, hs2⟩, ha⟩, hb⟩, hc⟩, hd⟩, he⟩, hf⟩, hg⟩, hhh⟩ := hcond
    intro ch hch
    simp only [List.mem_cons, List.not_mem_nil, or_false] at hch
    rcases hch with rfl | rfl | rfl | rfl | rfl | rfl | rfl | rfl | rfl | rfl
    · exact Or.inl ha
    · exact Or.inl hb
    · exact Or.inr hs1
    · exact Or.inl hc
    · exact Or.inl hd
    · exact Or.inr hs2
    · exact Or.inl he
    · exact Or.inl hf
    · exact Or.inl hg
    · exact Or.inl hhh
  · exact absurd h (by simp)

theorem extractDMY_ne_nil {l : List Char} {t : Nat × Nat × Nat}
    (h : extractDMY l = some t) : l.isEmpty = false := by
  unfold extractDMY at h
  split at h
  · rfl
  · exact absurd h (by simp)

theorem mkDate_fields {y m d : Nat} {dt : DateV} (h : mkDate y m d = some dt) :
    dt.y = y ∧ dt.m = m ∧ dt.d = d := by
  unfold mkDate at h
  split_ifs at h
  injection h with h1
  subst h1
  exact ⟨rfl, rfl, rfl⟩

theorem pyStrip_extractDMY {l : List Char} {t : Nat × Nat × Nat}
    (h : extractDMY l = some t) : pyStrip l = l :=
  pyStrip_eq_self (fun ch hch =>
    match extractDMY_chars h ch hch with
    | Or.inl hd => isSpaceChar_eq_false_of_isDigit hd
    | Or.inr hs => hs ▸ isSpaceChar_slash)

theorem parse_date_cell_strict (pp : String → Option DateV) {l : List Char}
    {d m y : Nat} {dt : DateV}
    (hx : extractDMY l = some (d, m, y))
    (hd : mkDate y m d = some dt) :
    parse_date_cell pp (.vstr (String.mk l)) = .ok (some dt) := by
  unfold parse_date_cell
  simp only [pyStr]
  rw [pyStrip_extractDMY hx, extractDMY_ne_nil hx]
  simp only [Bool.false_eq_true, if_false, hx, hd]

/-! ## Concrete fixtures for witnesses and counterexamples -/

/-- A pandas fallback that parses nothing (the strict paths never reach it). -/
def ppNone : String → Option DateV := fun _ => none

/-- The date 26/11/2568 (literal Buddhist-Era year, kept as-is). -/
def d0 : DateV := ⟨2568, 11, 26⟩

/-- A one-date-column map: 26/11/2568 lives in template column 4. -/
def dcm0 : List (DateV × Nat) := [(d0, 4)]

/-- A one-employee index: id 101 lives in template row 3. -/
def idx0 : List (String × Nat) := [("101", 3)]

/-- A record with every leave-count column missing. -/
def blankCounts : Counts7 := ⟨none, none, none, none, none, none, none⟩

/-- A record with no time-in, no reason counts, no comment. -/
def recNoIn : Rec := ⟨"101", d0, none, none, blankCounts, none⟩

/-- A record with time-in 08:00. -/
def recIn : Rec := ⟨"101", d0, some (.vstr ("08:00")), none, blankCounts, none⟩

/-- A record with no time-in and a sick count of 1.4. -/
def recSick14 : Rec :=
  ⟨"101", d0, none, none, ⟨none, none, none, some (7/5), none, none, none⟩, none⟩

/-- A record with no time-in, sick count 2 and personal count 1. -/
def recSick2Per1 : Rec :=
  ⟨"101", d0, none, none, ⟨none, none, none, some 2, some 1, none, none⟩, none⟩

/-- An all-blank cell. -/
def cellB : Cell := ⟨.vnone, false⟩

/-- An all-blank worksheet of 3 rows and 4 columns. -/
def wsBlank : Ws := ⟨fun _ _ => cellB, 3, 4⟩

/-- A minimal template: date header 26/11/2568 in (2,4), employee id 101 in
(3,2). -/
def wsTpl : Ws :=
  ⟨fun r c =>
    if r = 2 ∧ c = 4 then ⟨.vstr ("26/11/2568"), false⟩
    else if r = 3 ∧ c = 2 then ⟨.vstr ("101"), false⟩
    else cellB, 3, 4⟩

/-- A template with a date header in column 4 and a late header in
column 5. -/
def wsLate : Ws :=
  ⟨fun r c =>
    if r = 2 ∧ c = 4 then ⟨.vstr ("26/11/2568"), false⟩
    else if r = 2 ∧ c = 5 then ⟨.vstr ("สาย (นาที)"), false⟩
    else if r = 3 ∧ c = 2 then ⟨.vstr ("101"), false⟩
    else cellB, 3, 5⟩

/-- A summary-column assignment: only the absent column, at column 6. -/
def scols0 : SCols := ⟨some 6, none, none, none, none⟩

/-- A record with time-in and 5 late minutes. -/
def recLateA : Rec := ⟨"101", d0, some (.vstr ("08:00")), some 5, blankCounts, none⟩

/-- A record with time-in and 7 late minutes. -/
def recLateB : Rec := ⟨"101", d0, some (.vstr ("08:30")), some 7, blankCounts, none⟩

/-! ## Claims -/

/-- Claim C1, counterexample to the claim as stated: processing a record
with `clock_in` present does NOT always produce a non-highlighted cell.
Here two records for the same employee and date are processed in file order:
the first (no time-in) highlights the cell; the second (time-in `08:00`)
overwrites the value but the code never clears the fill, so the final cell
holds the time string and is still highlighted. -/
theorem c1_counterexample :
    recIn.timeIn.isSome = true
    ∧ (runRecords dcm0 idx0 none (wsBlank, 0) [recNoIn, recIn]).1.cells 3 4
        = ⟨.vstr ("08:00"), true⟩
    ∧ (runRecords dcm0 idx0 none (wsBlank, 0) [recNoIn, recIn]).2 = 1 := by
  refine ⟨rfl, ?_, rfl⟩
  decide

/-- Claim C1 (amended): for every record with `clock_in` present that
resolves to a template cell (away from the late column), processing writes
the string form of `clock_in` into the cell, leaves the cell's highlight
state exactly as it was (so the cell is non-highlighted whenever no earlier
record highlighted it), and counts the record toward the present-cells
tally. -/
theorem c1_time_in_cell (dcm : List (DateV × Nat)) (idx : List (String × Nat))
    (lcOpt : Option Nat) (ws : Ws) (tally : Nat) (rec : Rec) (v : Value)
    (r c : Nat)
    (hres : resolvesTo dcm idx rec = some (r, c))
    (hti : rec.timeIn = some v)
    (hlc : lcOpt ≠ some c) :
    (processRecord dcm idx lcOpt (ws, tally) rec).1.cells r c
        = { ws.cells r c with val := .vstr (pyStr v) }
      ∧ (processRecord dcm idx lcOpt (ws, tally) rec).2 = tally + 1 :=
  processRecord_timeIn hres hti hlc

/-- Claim C1 witness: the amended statement at the concrete blank template,
where the produced cell is indeed non-highlighted. -/
theorem c1_time_in_cell_witness :
    ((processRecord dcm0 idx0 none (wsBlank, 0) recIn).1.cells 3 4
        = { wsBlank.cells 3 4 with val := .vstr (pyStr (.vstr ("08:00"))) }
      ∧ (processRecord dcm0 idx0 none (wsBlank, 0) recIn).2 = 0 + 1)
    ∧ ((processRecord dcm0 idx0 none (wsBlank, 0) recIn).1.cells 3 4).yellow
        = false :=
  ⟨c1_time_in_cell dcm0 idx0 none wsBlank 0 recIn (.vstr ("08:00")) 3 4
      (by decide) rfl (by decide),
    by decide⟩

/-- Claim C2, counterexample to the claim as stated: the summary recount
increments the sick counter on the cell text `"ป่วย"`, yet that text does not
contain the header-scan marker `"ลาป่วย"`; the two marker substrings for the
sick category are not identical. -/
theorem c2_counterexample :
    (countStep ⟨0, 0, 0, 0, 0⟩ ("ป่วย")).sick = 1
    ∧ strContains ("ป่วย") (headerMarker .sick) = false
    ∧ cellMarker .sick ≠ headerMarker .sick := by
  refine ⟨by decide, by decide, by decide⟩

/-- Claim C2 (amended): the recount step increments a category exactly when
the cell text contains that category's cell marker; the cell markers for
absent, vacation and ordination equal the header markers, while the sick and
personal cell markers (`"ป่วย"`, `"กิจ"`) are proper substrings of the header
markers (`"ลาป่วย"`, `"ลากิจ"`), so any text containing a header marker is
still counted; and the header scan assigns a column to a category only when
the header text contains that category's header marker. -/
theorem c2_markers :
    (∀ k s, countStep k s = addHits k s)
    ∧ (cellMarker .absent = headerMarker .absent
        ∧ cellMarker .vacation = headerMarker .vacation
        ∧ cellMarker .ordination = headerMarker .ordination)
    ∧ (∀ cat, strContains (headerMarker cat) (cellMarker cat) = true)
    ∧ (∀ cat s, strContains s (headerMarker cat) = true →
        strContains s (cellMarker cat) = true)
    ∧ (∀ sc text c cat,
        slookup (scanSummaryStep sc text c) cat ≠ slookup sc cat →
        strContains text (headerMarker cat) = true) := by
  refine ⟨countStep_eq_addHits, ⟨rfl, rfl, rfl⟩, ?_, ?_, ?_⟩
  · intro cat
    cases cat <;> decide
  · intro cat s h
    refine strContains_trans ?_ h
    cases cat <;> decide
  · intro sc text c cat h
    exact scanSummaryStep_assigns cat h

/-- Claim C2 witness: a text containing the sick header marker is counted by
the recount step. -/
theorem c2_markers_witness :
    strContains ("มี ลาป่วย") (headerMarker .sick) = true
    ∧ strContains ("มี ลาป่วย") (cellMarker .sick) = true :=
  ⟨by decide, c2_markers.2.2.2.1 .sick ("มี ลาป่วย") (by decide)⟩

/-! Numeric evaluation facts on small rationals (Mathlib's `Rat` arithmetic
is `@[irreducible]`, so these are proved by `norm_num` rather than
`decide`). -/

theorem floor_seven_fifths : ⌊(7/5 : ℚ)⌋ = 1 := by
  rw [Int.floor_eq_iff]
  constructor
  · norm_num
  · norm_num

theorem pyRound_seven_fifths : pyRound (7/5 : ℚ) = 1 := by
  unfold pyRound
  rw [floor_seven_fifths]
  rw [if_pos (show (7/5 : ℚ) - ((1 : ℤ) : ℚ) < 1/2 by push_cast; norm_num)]

theorem pyRound_intCast (z : ℤ) : pyRound (z : ℚ) = z := by
  unfold pyRound
  rw [Int.floor_intCast]
  rw [if_pos (by rw [sub_self]; norm_num)]

theorem pyAbs_self_sub_lt_eps (x : ℚ) : pyAbs (x - x) < eps := by
  rw [sub_self]
  unfold pyAbs eps
  norm_num

theorem fracDigits_step (fuel : Nat) (x : ℚ) (hx : ¬x = 0) :
    fracDigits (fuel + 1) x
      = digitCharOf (⌊x * 10⌋).toNat :: fracDigits fuel (x * 10 - ⌊x * 10⌋) := by
  simp only [fracDigits]
  rw [if_neg hx]

theorem fracDigits_zero (fuel : Nat) : fracDigits (fuel + 1) 0 = [] := by
  simp [fracDigits]

theorem fracDigits_two_fifths : fracDigits 30 (2/5 : ℚ) = ['4'] := by
  rw [show (30 : Nat) = 29 + 1 from rfl,
    fracDigits_step 29 _ (by norm_num : ¬(2/5 : ℚ) = 0)]
  have h4 : ⌊(2/5 : ℚ) * 10⌋ = 4 := by
    rw [Int.floor_eq_iff]
    constructor
    · norm_num
    · norm_num
  have h0 : (2/5 : ℚ) * 10 - ((4 : ℤ) : ℚ) = 0 := by push_cast; norm_num
  rw [h4, h0, show (29 : Nat) = 28 + 1 from rfl, fracDigits_zero 28]
  rfl

theorem decStr_seven_fifths : decStr (7/5 : ℚ) = "1.4" := by
  unfold decStr
  rw [if_neg (by norm_num : ¬(7/5 : ℚ) < 0)]
  simp only [decStrNN]
  rw [floor_seven_fifths]
  have h25 : (7/5 : ℚ) - ((1 : ℤ) : ℚ) = 2/5 := by push_cast; norm_num
  rw [h25, fracDigits_two_fifths]
  rfl

theorem pieceFor_sick14 :
    pieceFor ("ลาป่วย") (some (7/5 : ℚ)) = some ("ลาป่วย(1.4)") := by
  simp only [pieceFor]
  rw [if_neg (by norm_num : ¬(7/5 : ℚ) = 0), pyRound_seven_fifths]
  have habs : ¬pyAbs ((7/5 : ℚ) - ((1 : ℤ) : ℚ)) < eps := by
    rw [show (7/5 : ℚ) - ((1 : ℤ) : ℚ) = 2/5 by push_cast; norm_num]
    unfold pyAbs eps
    rw [if_neg (by norm_num : ¬(2/5 : ℚ) < 0)]
    norm_num
  rw [if_neg habs, decStr_seven_fifths,
    if_neg (by decide : ¬("1.4" : String) = "1")]
  rfl

theorem buildPieces_recSick14 : buildPieces recSick14 = ["ลาป่วย(1.4)"] := by
  unfold buildPieces labelOrder recSick14
  simp only [List.filterMap_cons, List.filterMap_nil, getCount]
  rw [pieceFor_sick14]
  rfl

theorem cellText_recSick14 : cellText recSick14 = "ลาป่วย(1.4)" := by
  unfold cellText
  rw [show effComment recSick14 = none from rfl, buildPieces_recSick14]
  rfl

/-- Claim C3, counterexample to the claim as stated: a sick count of 1.4
rounds to 1 under Python `round`, yet the cell text is
`"ลาป่วย(1.4)"`, not the bare label the claim prescribes for counts that
round to 1. -/
theorem c3_counterexample :
    pyRound (7/5 : ℚ) = 1
    ∧ (processRecord dcm0 idx0 none (wsBlank, 0) recSick14).1.cells 3 4
        = ⟨.vstr ("ลาป่วย(1.4)"), true⟩
    ∧ ("ลาป่วย(1.4)" : String) ≠ "ลาป่วย" := by
  refine ⟨pyRound_seven_fifths, ?_, by decide⟩
  have h := (@processRecord_noTimeIn dcm0 idx0 none wsBlank 0 recSick14 3 4
    (show resolvesTo dcm0 idx0 recSick14 = some (3, 4) by decide)
    rfl (show (none : Option Nat) ≠ some 4 by decide)).1
  rw [h, cellText_recSick14]

/-- Claim C3 (amended): for a resolving record with no `clock_in` and no
non-blank comment whose piece list is non-empty, the highlighted cell's
text is the space-join of the pieces built by iterating the seven categories
in the fixed priority order, skipping missing and zero counts, appending the
bare Thai label exactly when the count is within `1e-6` of 1, and otherwise
the label with the count in parentheses (integer form when within `1e-6` of
its rounded value, else the literal decimal). -/
theorem c3_pieces (dcm : List (DateV × Nat)) (idx : List (String × Nat))
    (lcOpt : Option Nat) (ws : Ws) (tally : Nat) (rec : Rec) (r c : Nat)
    (hres : resolvesTo dcm idx rec = some (r, c))
    (hti : rec.timeIn = none)
    (hcm : effComment rec = none)
    (hne : specPieces rec ≠ [])
    (hlc : lcOpt ≠ some c) :
    buildPieces rec = specPieces rec
    ∧ (processRecord dcm idx lcOpt (ws, tally) rec).1.cells r c
        = ⟨.vstr (String.intercalate (" ") (specPieces rec)), true⟩ := by
  have hbp := buildPieces_eq_specPieces rec
  refine ⟨hbp, ?_⟩
  have h := (@processRecord_noTimeIn dcm idx lcOpt ws tally rec r c hres hti hlc).1
  rw [h]
  have hemp : (specPieces rec).isEmpty = false := by
    cases hsp : specPieces rec with
    | nil => exact absurd hsp hne
    | cons a t => rfl
  unfold cellText
  rw [hcm]
  simp only [hbp, hemp, Bool.false_eq_true, if_false]

theorem specRender_intCast (z : ℤ) : specRender ((z : ℤ) : ℚ) = pyIntStr z := by
  unfold specRender
  rw [pyRound_intCast, if_pos (pyAbs_self_sub_lt_eps _)]

theorem specPiece_two :
    specPiece ("ลาป่วย") (some (2 : ℚ)) = some ("ลาป่วย(2)") := by
  have h := specRender_intCast 2
  rw [show ((2 : ℤ) : ℚ) = (2 : ℚ) by norm_num] at h
  simp only [specPiece]
  rw [if_neg (by norm_num : ¬(2 : ℚ) = 0)]
  have habs : ¬pyAbs ((2 : ℚ) - 1) < eps := by
    rw [show (2 : ℚ) - 1 = 1 by norm_num]
    unfold pyAbs eps
    rw [if_neg (by norm_num : ¬(1 : ℚ) < 0)]
    norm_num
  rw [if_neg habs, h]
  rfl

theorem specPiece_one :
    specPiece ("ลากิจ") (some (1 : ℚ)) = some ("ลากิจ") := by
  simp only [specPiece]
  rw [if_neg (by norm_num : ¬(1 : ℚ) = 0)]
  have habs : pyAbs ((1 : ℚ) - 1) < eps := pyAbs_self_sub_lt_eps 1
  rw [if_pos habs]

theorem specPieces_recSick2Per1 :
    specPieces recSick2Per1 = ["ลาป่วย(2)", "ลากิจ"] := by
  unfold specPieces labelOrder recSick2Per1
  simp only [List.filterMap_cons, List.filterMap_nil, getCount]
  rw [specPiece_two, specPiece_one]
  rfl

/-- Claim C3 witness: sick=2, personal=1 yields `"ลาป่วย(2) ลากิจ"`. -/
theorem c3_pieces_witness :
    (buildPieces recSick2Per1 = specPieces recSick2Per1
      ∧ (processRecord dcm0 idx0 none (wsBlank, 0) recSick2Per1).1.cells 3 4
          = ⟨.vstr (String.intercalate (" ") (specPieces recSick2Per1)), true⟩)
    ∧ String.intercalate (" ") (specPieces recSick2Per1) = "ลาป่วย(2) ลากิจ" := by
  constructor
  · exact c3_pieces dcm0 idx0 none wsBlank 0 recSick2Per1 3 4 (by decide) rfl rfl
      (by rw [specPieces_recSick2Per1]; decide) (by decide)
  · rw [specPieces_recSick2Per1]
    rfl

/-- Claim C5, counterexample to the claim as stated: `"99/99/9999"` is in
strict dd/mm/yyyy form (two-digit day, two-digit month, four-digit year),
yet `parse_date_cell` does not return a date — the `date(y, m, d)`
constructor raises `ValueError` on the out-of-range month, uncaught. -/
theorem c5_counterexample :
    extractDMY (("99/99/9999" : String).data) = some (99, 99, 9999)
    ∧ parse_date_cell ppNone (.vstr ("99/99/9999")) = .error ("ValueError") := by
  refine ⟨by decide, rfl⟩

/-- Claim C5 (amended): for every string in strict dd/mm/yyyy form whose
three numbers form a valid calendar date, `parse_date_cell` returns that
literal date — the year, month and day are taken from the string with no
Buddhist/Western era conversion (strings whose numbers do not form a valid
date instead raise `ValueError`). -/
theorem c5_parse_literal (pp : String → Option DateV) (l : List Char)
    (d m y : Nat) (dt : DateV)
    (hx : extractDMY l = some (d, m, y))
    (hd : mkDate y m d = some dt) :
    parse_date_cell pp (.vstr (String.mk l)) = .ok (some dt)
    ∧ dt.y = y ∧ dt.m = m ∧ dt.d = d :=
  ⟨parse_date_cell_strict pp hx hd, mkDate_fields hd⟩

/-- Claim C5 witness: `"26/11/2568"` parses to the literal date
(2568, 11, 26) — the Buddhist-Era year 2568 is kept as-is. -/
theorem c5_parse_literal_witness :
    parse_date_cell ppNone (.vstr ("26/11/2568")) = .ok (some ⟨2568, 11, 26⟩)
    ∧ (2568 : Nat) = 2568 := by
  have h := (c5_parse_literal ppNone (("26/11/2568" : String).data)
    26 11 2568 ⟨2568, 11, 26⟩ (by decide) (by decide)).1
  exact ⟨h, rfl⟩

/-- Claim C6: a resolving record with no `clock_in`, no non-blank comment
and no leave category carrying a nonzero numeric count gets the highlighted
cell text `"ขาดงาน"` — the implementation defaults to the absent label
rather than leaving the cell blank. -/
theorem c6_default_absent (dcm : List (DateV × Nat)) (idx : List (String × Nat))
    (lcOpt : Option Nat) (ws : Ws) (tally : Nat) (rec : Rec) (r c : Nat)
    (hres : resolvesTo dcm idx rec = some (r, c))
    (hti : rec.timeIn = none)
    (hcm : effComment rec = none)
    (hz : ∀ cat q, getCount rec.counts cat = some q → q = 0)
    (hlc : lcOpt ≠ some c) :
    (processRecord dcm idx lcOpt (ws, tally) rec).1.cells r c
      = ⟨.vstr ("ขาดงาน"), true⟩ := by
  have hbp : buildPieces rec = [] := by
    unfold buildPieces
    rw [List.filterMap_eq_nil_iff]
    intro p _
    cases hq : getCount rec.counts p.1 with
    | none => rfl
    | some q =>
      have h0 := hz p.1 q hq
      subst h0
      simp [pieceFor]
  have h := (@processRecord_noTimeIn dcm idx lcOpt ws tally rec r c hres hti hlc).1
  rw [h]
  unfold cellText
  rw [hcm]
  simp only [hbp, List.isEmpty_nil, if_true]

/-- Claim C6 witness: the default-absent text at a concrete record with all
leave-count columns missing. -/
theorem c6_default_absent_witness :
    (processRecord dcm0 idx0 none (wsBlank, 0) recNoIn).1.cells 3 4
      = ⟨.vstr ("ขาดงาน"), true⟩ :=
  c6_default_absent dcm0 idx0 none wsBlank 0 recNoIn 3 4 (by decide) rfl rfl
    (fun cat q hq => by cases cat <;> exact Option.noConfusion hq)
    (by decide)

/-- Claim C8: when the header scan finds no date column at all, the fill run
fails fatally with the template-unusable message, before any day file is
processed or any data cell is written — the output file still holds the
pristine template copy. -/
theorem c8_no_date_cols_fatal (pp : String → Option DateV)
    (fs : String → Option Ws) (tpl out : String) (days : List (List Rec))
    (w : Ws) (lcOpt : Option Nat)
    (htpl : fs tpl = some w) (hne : tpl ≠ out)
    (hscan : scanHeaders pp w = .ok ([], lcOpt)) :
    (fill_template_from_days pp fs tpl days out).2
        = .error ("ไม่พบหัวคอลัมน์วันที่ใน template")
    ∧ (fill_template_from_days pp fs tpl days out).1 out = some w := by
  have hcore : fillCore pp w days = .error ("ไม่พบหัวคอลัมน์วันที่ใน template") := by
    unfold fillCore
    rw [hscan]
    rfl
  unfold fill_template_from_days
  simp [if_neg hne, htpl, hcore]

/-- Claim C8 witness: a template with no parseable date header aborts with
the fatal message and the output file holds the unmodified template copy. -/
theorem c8_no_date_cols_fatal_witness :
    (fill_template_from_days ppNone
        (fun p => if p = "template.xlsx" then some wsBlank else none)
        ("template.xlsx") [[recIn]] ("out.xlsx")).2
      = .error ("ไม่พบหัวคอลัมน์วันที่ใน template")
    ∧ (fill_template_from_days ppNone
        (fun p => if p = "template.xlsx" then some wsBlank else none)
        ("template.xlsx") [[recIn]] ("out.xlsx")).1 ("out.xlsx") = some wsBlank :=
  c8_no_date_cols_fatal ppNone _ ("template.xlsx") ("out.xlsx") [[recIn]]
    wsBlank none rfl (by decide) rfl

/-- Claim C7: the summary-count step is idempotent — when the discovered
summary columns are disjoint from the date columns (so its writes are not
intervening writes to date-column cells), a second run of the step computes
the same per-row, per-category counts as the first run wrote. -/
theorem c7_summary_idempotent (ws : Ws) (dcv : List Nat) (scols : SCols)
    (r : Nat)
    (hdisj : ∀ cat c0, slookup scols cat = some c0 → c0 ∉ dcv) :
    rowCounts (applySummary ws dcv scols) dcv r = rowCounts ws dcv r :=
  rowCounts_after_applySummary hdisj

/-- Claim C7 witness: idempotence at a concrete blank sheet with one date
column (4) and one summary column (6). -/
theorem c7_summary_idempotent_witness :
    rowCounts (applySummary wsBlank [4] scols0) [4] 3
      = rowCounts wsBlank [4] 3 :=
  c7_summary_idempotent wsBlank [4] scols0 3 (by
    intro cat c0 h0
    cases cat
    · injection h0 with h1
      subst h1
      decide
    · exact Option.noConfusion h0
    · exact Option.noConfusion h0
    · exact Option.noConfusion h0
    · exact Option.noConfusion h0)

/-- Claim C10: when at least one summary column is discovered, the summary
step writes the (possibly zero) recomputed count into every discovered
summary column of every row strictly below the header row up to the sheet's
last row, with no regard to the row's identifier cell — so pre-existing
values in such rows are overwritten, with zero when no date cell of the row
matches. -/
theorem c10_summary_all_rows (ws : Ws) (dcv : List Nat) (scols : SCols)
    (cat : SCat) (c r : Nat)
    (hany : anySummary scols = true)
    (hc : slookup scols cat = some c)
    (huniq : ∀ cat', slookup scols cat' = some c → cat' = cat)
    (hr1 : HEADER_ROW + 1 ≤ r) (hr2 : r ≤ ws.maxRow) :
    ((applySummary ws dcv scols).cells r c).val
      = .vnum (cField (rowCounts ws dcv r) cat) := by
  have hr : r ∈ rowList ws := by
    unfold rowList
    rw [List.mem_range'_1]
    unfold HEADER_ROW at hr1 ⊢
    omega
  rw [applySummary_at hany hc huniq hr]

/-- Claim C10 witness: on a blank sheet (blank identifier cells, no records
written) the absent summary column of row 3 is overwritten with the count 0. -/
theorem c10_summary_all_rows_witness :
    ((applySummary wsBlank [4] scols0).cells 3 6).val
        = .vnum (cField (rowCounts wsBlank [4] 3) .absent)
    ∧ cField (rowCounts wsBlank [4] 3) .absent = 0 :=
  ⟨c10_summary_all_rows wsBlank [4] scols0 .absent 6 3 (by decide) rfl
      (fun cat' h0 => by
        cases cat'
        · rfl
        · exact Option.noConfusion h0
        · exact Option.noConfusion h0
        · exact Option.noConfusion h0
        · exact Option.noConfusion h0)
      (by decide) (by decide),
    by decide⟩

/-- Unfolding of `fillCore` on a successful header scan with at least one
date column. -/
theorem fillCore_ok {pp : String → Option DateV} {ws0 : Ws}
    {days : List (List Rec)} {dcm : List (DateV × Nat)} {lcOpt : Option Nat}
    (hscan : scanHeaders pp ws0 = .ok (dcm, lcOpt))
    (hne : dcm.isEmpty = false) :
    fillCore pp ws0 days
      = .ok (applySummary
            (runDays dcm (scanEmployees ws0) lcOpt (ws0, 0) days).1
            (dcm.map Prod.snd) (scanSummary ws0),
          (runDays dcm (scanEmployees ws0) lcOpt (ws0, 0) days).2) := by
  unfold fillCore
  rw [hscan]
  simp only [hne, Bool.false_eq_true, if_false]

/-- Unfolding of `fillCore` on a successful header scan that found no date
column. -/
theorem fillCore_err {pp : String → Option DateV} {ws0 : Ws}
    {days : List (List Rec)} {dcm : List (DateV × Nat)} {lcOpt : Option Nat}
    (hscan : scanHeaders pp ws0 = .ok (dcm, lcOpt))
    (hemp : dcm.isEmpty = true) :
    fillCore pp ws0 days = .error ("ไม่พบหัวคอลัมน์วันที่ใน template") := by
  unfold fillCore
  rw [hscan]
  simp only [hemp, if_true]

/-- Claim C4: for a fixed template whose late column is distinct from every
date column and every discovered summary column, processing any permutation
of the day files (each file's internal order preserved) leaves the same
final value in every employee's late-minutes cell. -/
theorem c4_late_perm (pp : String → Option DateV) (ws0 : Ws)
    (dcm : List (DateV × Nat)) (lc : Nat)
    (files1 files2 : List (List Rec)) (r : Nat)
    (hscan : scanHeaders pp ws0 = .ok (dcm, some lc))
    (hdc : lc ∉ dcm.map Prod.snd)
    (hsum : ∀ cat c0, slookup (scanSummary ws0) cat = some c0 → c0 ≠ lc)
    (hperm : files1.Perm files2) :
    (fillCore pp ws0 files1).map (fun p => p.1.cells r lc)
      = (fillCore pp ws0 files2).map (fun p => p.1.cells r lc) := by
  cases hemp : dcm.isEmpty with
  | true =>
    rw [fillCore_err hscan hemp, fillCore_err hscan hemp]
  | false =>
    rw [fillCore_ok hscan hemp, fillCore_ok hscan hemp]
    simp only [Except.map]
    congr 1
    rw [applySummary_col_frame hsum, applySummary_col_frame hsum,
      runDays_eq_join, runDays_eq_join,
      runRecords_lateCell hdc _ _, runRecords_lateCell hdc _ _]
    exact lateFoldCell_perm _ (hperm.flatten.filterMap _)

/-- Claim C4 witness: swapping two one-record day files leaves the same
late-minutes cell contents. -/
theorem c4_late_perm_witness :
    (fillCore ppNone wsLate [[recLateA], [recLateB]]).map
        (fun p => p.1.cells 3 5)
      = (fillCore ppNone wsLate [[recLateB], [recLateA]]).map
        (fun p => p.1.cells 3 5) :=
  c4_late_perm ppNone wsLate [(d0, 4)] 5 [[recLateA], [recLateB]]
    [[recLateB], [recLateA]] 3 rfl (by decide)
    (fun cat c0 h0 => by
      have hsc : scanSummary wsLate = ⟨none, none, none, none, none⟩ := rfl
      rw [hsc] at h0
      cases cat
      · exact Option.noConfusion h0
      · exact Option.noConfusion h0
      · exact Option.noConfusion h0
      · exact Option.noConfusion h0
      · exact Option.noConfusion h0)
    (List.Perm.swap _ _ _)

/-- Frame property of the core fill: a cell in no date-resolved position, in
no late column and in no summary column is left exactly as in the
template. -/
theorem fillCore_frame {pp : String → Option DateV} {w : Ws}
    {days : List (List Rec)} {ws' : Ws} {tally : Nat}
    {dcm : List (DateV × Nat)} {lcOpt : Option Nat} {r c : Nat}
    (hok : fillCore pp w days = .ok (ws', tally))
    (hscan : scanHeaders pp w = .ok (dcm, lcOpt))
    (hrec : ∀ rec ∈ days.flatten,
      resolvesTo dcm (scanEmployees w) rec ≠ some (r, c))
    (hlc : ∀ lcv, lcOpt = some lcv → c ≠ lcv)
    (hsum : ∀ cat c0, slookup (scanSummary w) cat = some c0 → c0 ≠ c) :
    ws'.cells r c = w.cells r c := by
  cases hemp : dcm.isEmpty with
  | true =>
    rw [fillCore_err hscan hemp] at hok
    exact absurd hok (by simp)
  | false =>
    rw [fillCore_ok hscan hemp] at hok
    injection hok with h1
    have hws : ws' = applySummary
        (runDays dcm (scanEmployees w) lcOpt (w, 0) days).1
        (dcm.map Prod.snd) (scanSummary w) := (congrArg Prod.fst h1).symm
    rw [hws, applySummary_col_frame hsum, runDays_eq_join]
    exact runRecords_frame hrec hlc

/-- Claim C9: the fill run first removes any pre-existing file at the output
path and copies the template bytes there; the template file itself is never
mutated; the produced output depends only on the template content and the
day records (never on stale data from a previous run); and on success every
cell the run does not explicitly write — no resolved record position, not
the late column, no summary column — is identical to the template cell. -/
theorem c9_output_frame (pp : String → Option DateV) (fs : String → Option Ws)
    (tpl out : String) (days : List (List Rec)) (w : Ws)
    (htpl : fs tpl = some w) (hne : tpl ≠ out) :
    ((fill_template_from_days pp fs tpl days out).1 tpl = fs tpl)
    ∧ (∀ fs2 : String → Option Ws, fs2 tpl = some w →
        (fill_template_from_days pp fs2 tpl days out).1 out
          = (fill_template_from_days pp fs tpl days out).1 out)
    ∧ (∀ ws' tally, fillCore pp w days = .ok (ws', tally) →
        (fill_template_from_days pp fs tpl days out).1 out = some ws'
        ∧ ∀ r c dcm lcOpt,
            scanHeaders pp w = .ok (dcm, lcOpt) →
            (∀ rec ∈ days.flatten,
              resolvesTo dcm (scanEmployees w) rec ≠ some (r, c)) →
            (∀ lcv, lcOpt = some lcv → c ≠ lcv) →
            (∀ cat c0, slookup (scanSummary w) cat = some c0 → c0 ≠ c) →
            ws'.cells r c = w.cells r c) := by
  unfold fill_template_from_days
  simp only [if_neg hne, htpl]
  cases hcore : fillCore pp w days with
  | error e =>
    refine ⟨?_, ?_, ?_⟩
    · simp [if_neg hne, htpl]
    · intro fs2 h2
      rw [h2]
      simp [if_neg hne, hcore]
    · intro ws' tally hok
      exact absurd hok (by simp)
  | ok pr =>
    obtain ⟨ws', tally⟩ := pr
    refine ⟨?_, ?_, ?_⟩
    · simp [if_neg hne, htpl]
    · intro fs2 h2
      rw [h2]
      simp [if_neg hne, hcore]
    · intro ws'' tally'' hok
      injection hok with h1
      injection h1 with h2 h3
      subst h2
      constructor
      · simp
      · intro r c dcm lcOpt hscan hrec hlc2 hsum
        exact fillCore_frame hcore hscan hrec hlc2 hsum

/-- Claim C9 witness: with a stale file already at the output path, the run
leaves the template file untouched. -/
theorem c9_output_frame_witness :
    (fill_template_from_days ppNone
        (fun p => if p = "t.xlsx" then some wsTpl
          else if p = "o.xlsx" then some wsBlank else none)
        ("t.xlsx") [[recIn]] ("o.xlsx")).1 ("t.xlsx")
      = (fun p => if p = "t.xlsx" then some wsTpl
          else if p = "o.xlsx" then some wsBlank else none) ("t.xlsx") :=
  (c9_output_frame ppNone _ ("t.xlsx") ("o.xlsx") [[recIn]] wsTpl rfl
    (by decide)).1

end Timestamp
